import Mathlib

/-!
Verification of crashpad's `MachOImageReader`
(`util/mac/mach_o_image_reader.h`).

The repository provides the class declaration and its documented contracts in
the header; the method bodies live in `util/mac/mach_o_image_reader.cc`, which
is not part of the sources given here.  Definitions whose doc comment starts
with `Modelled from the spec:` therefore embed the behaviour described by the
specification (initialization, load-command dispatch, slide and growth
accounting, the lookup operations), faithful to its words; the inline
accessors that do appear in the header are embedded directly from it.

Machine arithmetic: `mach_vm_address_t` and `mach_vm_size_t` are unsigned
64-bit integers, embedded as `Nat` with explicit reduction modulo `2 ^ 64`
wherever the C arithmetic can wrap.
-/

namespace Crashpad

/-- The modulus of `mach_vm_address_t` / `mach_vm_size_t` (unsigned 64-bit)
arithmetic. -/
def U64MOD : Nat := 2 ^ 64

/-- Unsigned 64-bit subtraction: `a - b` computed modulo `2 ^ 64`, as the C
expression of type `mach_vm_size_t` computes it. -/
def sub64 (a b : Nat) : Nat := (a % U64MOD + U64MOD - b % U64MOD) % U64MOD

/-- Mach-O magic number of a 32-bit image (`mach_header`). -/
def MH_MAGIC : Nat := 0xfeedface

/-- Mach-O magic number of a 64-bit image (`mach_header_64`). -/
def MH_MAGIC_64 : Nat := 0xfeedfacf

/-- Mach-O file type of a main executable. -/
def MH_EXECUTE : Nat := 0x2

/-- Mach-O file type of a dynamic library. -/
def MH_DYLIB : Nat := 0x6

/-- Mach-O file type of a dynamic linker. -/
def MH_DYLINKER : Nat := 0x7

/-- The pointer width of the remote image, chosen at run time from the magic
number of its file header. -/
inductive Width where
  | w32
  | w64
deriving DecidableEq, Repr

/-- Modelled from the spec: header probing in `Initialize`
(`util/mac/mach_o_image_reader.cc` is absent).  The magic field selects the
32-bit or the 64-bit record layout; any other value is unsupported and makes
initialization fail. -/
def widthForMagic (magic : Nat) : Option Width :=
  if magic = MH_MAGIC then some Width.w32
  else if magic = MH_MAGIC_64 then some Width.w64
  else none

/-- One section of a segment, the visible fields of
`process_types::section`: its name, the name of its segment, its preferred
load address as stored in the file, and its size. -/
structure MachSection where
  sectname : String
  segname : String
  addr : Nat
  size : Nat
deriving DecidableEq, Repr

/-- One segment of the image, the visible fields of
`MachOImageSegmentReader` (external to this core): its name, preferred load
address (`vmaddr`) and size (`vmsize`) as recorded in the file, its file
offset, whether the segment is eligible to slide, and its ordered section
table. -/
structure MachOImageSegmentReader where
  segname : String
  vmaddr : Nat
  vmsize : Nat
  fileoff : Nat
  slides : Bool
  sections : List MachSection
deriving DecidableEq, Repr

/-- The content of one load command, already decoded by type tag.  The
recognized commands carry the fields this reader consumes; every other
command type is `other` with its raw tag. -/
inductive LoadCommandPayload where
  | segment (seg : MachOImageSegmentReader)
  | symtab
  | dysymtab
  | idDylib (dylib_current_version : Nat)
  | loadDylinker (name : String)
  | idDylinker (name : String)
  | uuidCmd (bytes : List Nat)
  | sourceVersion (version : Nat)
  | other (cmd : Nat)
deriving DecidableEq, Repr

/-- A load command as it appears in the file: its declared byte length
(`cmdsize`) and its decoded content. -/
structure LoadCommand where
  cmdsize : Nat
  payload : LoadCommandPayload
deriving DecidableEq, Repr

/-- The remote Mach-O image as presented to `Initialize`: the header's magic
and file type, and the load commands in file order. -/
structure MachImage where
  magic : Nat
  filetype : Nat
  loadCommands : List LoadCommand
deriving DecidableEq, Repr

/-- Size in bytes of an `LC_SEGMENT` / `LC_SEGMENT_64` command record without
its section table, per pointer width. -/
def segmentCommandSize : Width → Nat
  | Width.w32 => 56
  | Width.w64 => 72

/-- Size in bytes of one section record inside a segment command, per pointer
width. -/
def sectionRecordSize : Width → Nat
  | Width.w32 => 68
  | Width.w64 => 80

/-- Modelled from the spec: the expected record size, for the detected
pointer width, that each recognized command's declared `cmdsize` must match
(`util/mac/mach_o_image_reader.cc` is absent).  `none` means the command type
is not recognized and its declared length is not validated. -/
def expectedCmdsize (w : Width) (ft : Nat) : LoadCommandPayload → Option Nat
  | LoadCommandPayload.segment seg =>
      some (segmentCommandSize w + seg.sections.length * sectionRecordSize w)
  | LoadCommandPayload.symtab => some 24
  | LoadCommandPayload.dysymtab => some 80
  | LoadCommandPayload.idDylib _ => some 24
  | LoadCommandPayload.loadDylinker _ =>
      if ft = MH_EXECUTE then some 12 else none
  | LoadCommandPayload.idDylinker _ =>
      if ft = MH_DYLINKER then some 12 else none
  | LoadCommandPayload.uuidCmd _ => some 24
  | LoadCommandPayload.sourceVersion _ => some 16
  | LoadCommandPayload.other _ => none

/-- The state of a `MachOImageReader` object: the ordered segment collection,
the name→index map over it, and the scalar fields filled in by the
load-command handlers.  The `symtab_command_` / `dysymtab_command_` members
are modelled by presence flags since no query in this core exposes their
contents. -/
structure MachOImageReader where
  segments : List MachOImageSegmentReader
  segment_map : List (String × Nat)
  dylinker_name : String
  uuid : List Nat
  address : Nat
  size : Nat
  slide : Nat
  source_version : Nat
  symtab_command : Bool
  dysymtab_command : Bool
  id_dylib_command : Option Nat
  file_type : Nat
deriving DecidableEq, Repr

/-- Lookup in the name→index map, `std::map::find` semantics: the most
recently inserted binding for a key is the one found. -/
def segmentMapFind : List (String × Nat) → String → Option Nat
  | [], _ => none
  | kv :: rest, name =>
      if kv.fst = name then some kv.snd else segmentMapFind rest name

/-- Modelled from the spec: the reader state at the start of the load-command
iteration (`util/mac/mach_o_image_reader.cc` is absent).  Every optional
scalar holds its documented default: all-zero UUID, `0` source version, empty
dylinker name, no `LC_ID_DYLIB` command recorded. -/
def initialReader (address : Nat) (file_type : Nat) : MachOImageReader :=
  { segments := []
    segment_map := []
    dylinker_name := ""
    uuid := List.replicate 16 0
    address := address
    size := 0
    slide := 0
    source_version := 0
    symtab_command := false
    dysymtab_command := false
    id_dylib_command := none
    file_type := file_type }

/-- Modelled from the spec: dispatch of one load command
(`util/mac/mach_o_image_reader.cc` is absent).  A segment command whose
declared length matches the expected size for the detected width appends a
new segment reader to the ordered collection and indexes it by name,
overwriting any prior entry under the same name; the recognized scalar
commands validate their declared length and update their field;
`LC_LOAD_DYLINKER` is consumed only by `MH_EXECUTE` images and
`LC_ID_DYLINKER` only by `MH_DYLINKER` images; any other command type is
skipped silently using its declared length.  `none` fails the whole
initialization. -/
def stepCommand (w : Width) (ft : Nat) (st : MachOImageReader)
    (lc : LoadCommand) : Option MachOImageReader :=
  match lc.payload with
  | LoadCommandPayload.segment seg =>
      if lc.cmdsize =
          segmentCommandSize w + seg.sections.length * sectionRecordSize w then
        some { st with
                 segments := st.segments ++ [seg]
                 segment_map := (seg.segname, st.segments.length) :: st.segment_map }
      else none
  | LoadCommandPayload.symtab =>
      if lc.cmdsize = 24 then some { st with symtab_command := true } else none
  | LoadCommandPayload.dysymtab =>
      if lc.cmdsize = 80 then some { st with dysymtab_command := true } else none
  | LoadCommandPayload.idDylib v =>
      if lc.cmdsize = 24 then some { st with id_dylib_command := some v } else none
  | LoadCommandPayload.loadDylinker name =>
      if ft = MH_EXECUTE then
        if lc.cmdsize = 12 then some { st with dylinker_name := name } else none
      else some st
  | LoadCommandPayload.idDylinker name =>
      if ft = MH_DYLINKER then
        if lc.cmdsize = 12 then some { st with dylinker_name := name } else none
      else some st
  | LoadCommandPayload.uuidCmd bytes =>
      if lc.cmdsize = 24 then some { st with uuid := bytes } else none
  | LoadCommandPayload.sourceVersion v =>
      if lc.cmdsize = 16 then some { st with source_version := v } else none
  | LoadCommandPayload.other _ => some st

/-- Modelled from the spec: the load-command iteration of `Initialize`
(`util/mac/mach_o_image_reader.cc` is absent).  Commands are consumed in file
order; the first handler failure fails the whole run. -/
def runCommands (w : Width) (ft : Nat) :
    MachOImageReader → List LoadCommand → Option MachOImageReader
  | st, [] => some st
  | st, lc :: rest =>
      match stepCommand w ft st lc with
      | none => none
      | some st2 => runCommands w ft st2 rest

/-- Modelled from the spec: `MachOImageReader::Initialize`
(`util/mac/mach_o_image_reader.cc` is absent).  Reads the header to determine
the pointer width from the magic, iterates the load commands, then requires a
`__TEXT` segment with file offset zero and derives the image's slide (the
actual load address minus `__TEXT`'s preferred `vmaddr`, in unsigned 64-bit
arithmetic) and size (`__TEXT`'s `vmsize`, grown by the slide when `__TEXT`
does not slide).  `none` is the `false` return: no partial image is
exposed. -/
def Initialize (address : Nat) (image : MachImage) : Option MachOImageReader :=
  match widthForMagic image.magic with
  | none => none
  | some w =>
      match runCommands w image.filetype
          (initialReader address image.filetype) image.loadCommands with
      | none => none
      | some st =>
          match segmentMapFind st.segment_map "__TEXT" with
          | none => none
          | some i =>
              match st.segments[i]? with
              | none => none
              | some text =>
                  if text.fileoff = 0 then
                    some { st with
                             slide := sub64 address text.vmaddr
                             size := (text.vmsize +
                               (if text.slides then 0
                                else sub64 address text.vmaddr)) % U64MOD }
                  else none

/-- `MachOImageReader::FileType`, inline in the header: the `filetype` field
of the `mach_header` / `mach_header_64`. -/
def FileType (r : MachOImageReader) : Nat := r.file_type

/-- `MachOImageReader::Address`, inline in the header: the load address
passed to `Initialize`. -/
def Address (r : MachOImageReader) : Nat := r.address

/-- `MachOImageReader::Size`, inline in the header: the mapped size of the
`__TEXT` segment. -/
def Size (r : MachOImageReader) : Nat := r.size

/-- `MachOImageReader::Slide`, inline in the header: the difference between
the image's actual and preferred load addresses, stored in the unsigned
`slide_` field of type `mach_vm_size_t`. -/
def Slide (r : MachOImageReader) : Nat := r.slide

/-- `MachOImageReader::SourceVersion`, inline in the header: the value of the
`LC_SOURCE_VERSION` command, `0` when absent. -/
def SourceVersion (r : MachOImageReader) : Nat := r.source_version

/-- `MachOImageReader::DylinkerName`, inline in the header: the dynamic
linker's pathname, empty when not applicable. -/
def DylinkerName (r : MachOImageReader) : String := r.dylinker_name

/-- `MachOImageReader::UUID` output: the image's UUID, all-zero when the
`LC_UUID` command is absent. -/
def UUID (r : MachOImageReader) : List Nat := r.uuid

/-- Modelled from the spec: `MachOImageReader::DylibVersion`
(`util/mac/mach_o_image_reader.cc` is absent).  May only be called on images
whose file type is `MH_DYLIB`; the assertion that fires on any other file
type is modelled as `none`.  For a dylib it returns the
`dylib_current_version` field of the `LC_ID_DYLIB` command, or `0` when that
command is absent. -/
def DylibVersion (r : MachOImageReader) : Option Nat :=
  if r.file_type = MH_DYLIB then
    some (match r.id_dylib_command with
          | some v => v
          | none => 0)
  else none

/-- Modelled from the spec: `MachOImageReader::GetSegmentByName`
(`util/mac/mach_o_image_reader.cc` is absent).  O(1) through the name index;
not-found is `none`.  The returned address takes the slide into account for a
sliding segment, and the returned size takes growth by the slide into account
for a non-sliding segment, in unsigned 64-bit arithmetic. -/
def GetSegmentByName (r : MachOImageReader) (segment_name : String) :
    Option (MachOImageSegmentReader × Nat × Nat) :=
  match segmentMapFind r.segment_map segment_name with
  | none => none
  | some i =>
      match r.segments[i]? with
      | none => none
      | some seg =>
          some (seg,
                (seg.vmaddr + (if seg.slides then r.slide else 0)) % U64MOD,
                (seg.vmsize + (if seg.slides then 0 else r.slide)) % U64MOD)

/-- Linear search of a segment's section table by section name, first match
wins. -/
def findSectionNamed : List MachSection → String → Option MachSection
  | [], _ => none
  | s :: rest, name =>
      if s.sectname = name then some s else findSectionNamed rest name

/-- Modelled from the spec: `MachOImageReader::GetSectionByName`
(`util/mac/mach_o_image_reader.cc` is absent).  Resolves the segment first
(not-found propagates), then searches that segment's sections; the returned
address is the section's preferred address adjusted by the slide when its
segment slides. -/
def GetSectionByName (r : MachOImageReader) (segment_name : String)
    (section_name : String) : Option (MachSection × Nat) :=
  match GetSegmentByName r segment_name with
  | none => none
  | some (seg, _, _) =>
      match findSectionNamed seg.sections section_name with
      | none => none
      | some s =>
          some (s, (s.addr + (if seg.slides then r.slide else 0)) % U64MOD)

/-- Walk the ordered segment collection looking for the section with
0-based cross-segment ordinal `i`, returning it with its segment. -/
def sectionAt : List MachOImageSegmentReader → Nat →
    Option (MachOImageSegmentReader × MachSection)
  | [], _ => none
  | seg :: rest, i =>
      match seg.sections[i]? with
      | some s => some (seg, s)
      | none => sectionAt rest (i - seg.sections.length)

/-- Modelled from the spec: `MachOImageReader::GetSectionAtIndex`
(`util/mac/mach_o_image_reader.cc` is absent).  `index` is the 1-based
`n_sect`-style ordinal counted across all segments in load-command order.
Out-of-range values — `0` and anything past the last section — log a warning
and return `none` instead of aborting, because the index may come from
untrusted symbol-table data. -/
def GetSectionAtIndex (r : MachOImageReader) (index : Nat) :
    Option (MachSection × Nat) :=
  if index = 0 then none
  else
    match sectionAt r.segments (index - 1) with
    | none => none
    | some (seg, s) =>
        some (s, (s.addr + (if seg.slides then r.slide else 0)) % U64MOD)

/-- The segments carried by a load-command list, in load-command order: the
specification-side view of the ordered segment collection `Initialize`
builds. -/
def commandSegments : List LoadCommand → List MachOImageSegmentReader
  | [] => []
  | lc :: rest =>
      match lc.payload with
      | LoadCommandPayload.segment seg => seg :: commandSegments rest
      | _ => commandSegments rest

/-- All sections of an ordered segment collection, concatenated in
load-command order: the carrier of the 1-based `n_sect`-style ordinal. -/
def allSections : List MachOImageSegmentReader → List MachSection
  | [] => []
  | seg :: rest => seg.sections ++ allSections rest

/-- The last segment carrying the given name in an ordered segment
collection, the specification-side description of what the
last-write-wins name index resolves to. -/
def lastSegmentWithName :
    List MachOImageSegmentReader → String → Option MachOImageSegmentReader
  | [], _ => none
  | seg :: rest, name =>
      match lastSegmentWithName rest name with
      | some s => some s
      | none => if seg.segname = name then some seg else none

/-- Whether a load command passes the declared-length validation of its
handler: recognized commands must declare exactly the expected record size
for the detected width, every other command is skipped without
validation. -/
def commandSizeOk (w : Width) (ft : Nat) (lc : LoadCommand) : Bool :=
  match expectedCmdsize w ft lc.payload with
  | none => true
  | some n => lc.cmdsize == n

/-- Whether a load command is one of the optional commands feeding the scalar
accessors: `LC_ID_DYLIB`, `LC_LOAD_DYLINKER`, `LC_ID_DYLINKER`, `LC_UUID`,
`LC_SOURCE_VERSION`. -/
def hasOptionalScalarCommand (lc : LoadCommand) : Bool :=
  match lc.payload with
  | LoadCommandPayload.idDylib _ => true
  | LoadCommandPayload.loadDylinker _ => true
  | LoadCommandPayload.idDylinker _ => true
  | LoadCommandPayload.uuidCmd _ => true
  | LoadCommandPayload.sourceVersion _ => true
  | _ => false

/-- The effect of one load command on the stored dynamic-linker name, for a
given file type. -/
def dylinkerStep (ft : Nat) (acc : String) (lc : LoadCommand) : String :=
  match lc.payload with
  | LoadCommandPayload.loadDylinker name => if ft = MH_EXECUTE then name else acc
  | LoadCommandPayload.idDylinker name => if ft = MH_DYLINKER then name else acc
  | _ => acc

/-- The name carried by the last `LC_LOAD_DYLINKER` command of a
load-command list, or the empty string when there is none. -/
def lastLoadDylinkerName (cmds : List LoadCommand) : String :=
  cmds.foldl
    (fun acc lc =>
      match lc.payload with
      | LoadCommandPayload.loadDylinker n => n
      | _ => acc) ""

/-- The name carried by the last `LC_ID_DYLINKER` command of a load-command
list, or the empty string when there is none. -/
def lastIdDylinkerName (cmds : List LoadCommand) : String :=
  cmds.foldl
    (fun acc lc =>
      match lc.payload with
      | LoadCommandPayload.idDylinker n => n
      | _ => acc) ""

/-- Consistency of the name→index map with the ordered segment collection:
every entry points into the collection, a found name resolves to the last
same-named segment, and a name that is absent from the map names no
segment. -/
def mapInv (st : MachOImageReader) : Prop :=
  ∀ name,
    (∀ i, segmentMapFind st.segment_map name = some i →
        i < st.segments.length ∧
        st.segments[i]? = lastSegmentWithName st.segments name) ∧
    (segmentMapFind st.segment_map name = none →
        lastSegmentWithName st.segments name = none)

/-- A sample `__text` section. -/
def textSection : MachSection :=
  { sectname := "__text", segname := "__TEXT", addr := 4352, size := 256 }

/-- A sample `__TEXT` segment: preferred address 4096, size 8192, file offset
zero, eligible to slide. -/
def textSeg : MachOImageSegmentReader :=
  { segname := "__TEXT", vmaddr := 4096, vmsize := 8192, fileoff := 0,
    slides := true, sections := [textSection] }

/-- A sample sliding `__DATA` segment with two sections. -/
def dataSeg : MachOImageSegmentReader :=
  { segname := "__DATA", vmaddr := 12288, vmsize := 4096, fileoff := 8192,
    slides := true,
    sections :=
      [{ sectname := "__data", segname := "__DATA", addr := 12288, size := 16 },
       { sectname := "__bss", segname := "__DATA", addr := 12544, size := 32 }] }

/-- A second sample segment that also carries the name `__DATA`, appearing
later in load-command order; this one does not slide. -/
def data2Seg : MachOImageSegmentReader :=
  { segname := "__DATA", vmaddr := 20480, vmsize := 4096, fileoff := 12288,
    slides := false,
    sections :=
      [{ sectname := "__common", segname := "__DATA", addr := 20480, size := 64 }] }

/-- The 64-bit segment command carrying `textSeg` (one section: 72 + 80). -/
def textCmd : LoadCommand :=
  { cmdsize := 152, payload := LoadCommandPayload.segment textSeg }

/-- The 64-bit segment command carrying `dataSeg` (two sections: 72 + 160). -/
def dataCmd : LoadCommand :=
  { cmdsize := 232, payload := LoadCommandPayload.segment dataSeg }

/-- The 64-bit segment command carrying `data2Seg` (one section: 72 + 80). -/
def data2Cmd : LoadCommand :=
  { cmdsize := 152, payload := LoadCommandPayload.segment data2Seg }

/-- A sample well-formed 64-bit executable image: three segments (two of them
named `__DATA`), a dynamic-linker command, a source-version command, and one
unrecognized command. -/
def sampleImage : MachImage :=
  { magic := MH_MAGIC_64, filetype := MH_EXECUTE,
    loadCommands :=
      [textCmd, dataCmd, data2Cmd,
       { cmdsize := 12, payload := LoadCommandPayload.loadDylinker "/usr/lib/dyld" },
       { cmdsize := 16, payload := LoadCommandPayload.sourceVersion 5 },
       { cmdsize := 8, payload := LoadCommandPayload.other 42 }] }

/-- The reader state produced by initializing `sampleImage` at load address
20480 (slide 16384). -/
def sampleReader : MachOImageReader :=
  { segments := [textSeg, dataSeg, data2Seg]
    segment_map := [("__DATA", 2), ("__DATA", 1), ("__TEXT", 0)]
    dylinker_name := "/usr/lib/dyld"
    uuid := List.replicate 16 0
    address := 20480
    size := 8192
    slide := 16384
    source_version := 5
    symtab_command := false
    dysymtab_command := false
    id_dylib_command := none
    file_type := MH_EXECUTE }

/-- A minimal 64-bit dylib image with no optional scalar commands. -/
def minImage : MachImage :=
  { magic := MH_MAGIC_64, filetype := MH_DYLIB, loadCommands := [textCmd] }

/-- The reader state produced by initializing `minImage` at its preferred
address 4096 (slide 0). -/
def minReader : MachOImageReader :=
  { segments := [textSeg]
    segment_map := [("__TEXT", 0)]
    dylinker_name := ""
    uuid := List.replicate 16 0
    address := 4096
    size := 8192
    slide := 0
    source_version := 0
    symtab_command := false
    dysymtab_command := false
    id_dylib_command := none
    file_type := MH_DYLIB }

/-- A 64-bit bundle image that nevertheless carries an `LC_LOAD_DYLINKER`
command. -/
def bundleImage : MachImage :=
  { magic := MH_MAGIC_64, filetype := 0x8,
    loadCommands :=
      [textCmd,
       { cmdsize := 12, payload := LoadCommandPayload.loadDylinker "/usr/lib/dyld" }] }

/-- The reader state produced by initializing `bundleImage` at address 4096:
the dynamic-linker name stays empty because the file type is neither
`MH_EXECUTE` nor `MH_DYLINKER`. -/
def bundleReader : MachOImageReader :=
  { segments := [textSeg]
    segment_map := [("__TEXT", 0)]
    dylinker_name := ""
    uuid := List.replicate 16 0
    address := 4096
    size := 8192
    slide := 0
    source_version := 0
    symtab_command := false
    dysymtab_command := false
    id_dylib_command := none
    file_type := 0x8 }

/-- The reader state produced by initializing `negSlideImage` at load address
256, below the preferred `__TEXT` address 4096, so the unsigned 64-bit
subtraction computing the slide wraps around. -/
def negSlideReader : MachOImageReader :=
  { segments := [textSeg]
    segment_map := [("__TEXT", 0)]
    dylinker_name := ""
    uuid := List.replicate 16 0
    address := 256
    size := 8192
    slide := 18446744073709547776
    source_version := 0
    symtab_command := false
    dysymtab_command := false
    id_dylib_command := none
    file_type := MH_EXECUTE }

/-- The executable image used for the wrapped-slide scenario. -/
def negSlideImage : MachImage :=
  { magic := MH_MAGIC_64, filetype := MH_EXECUTE, loadCommands := [textCmd] }

/-- An image whose magic matches no supported pointer width. -/
def badMagicImage : MachImage :=
  { magic := 0, filetype := MH_EXECUTE, loadCommands := [] }

/-- An image containing an `LC_SYMTAB` command whose declared length 23 does
not match the expected 24-byte record size. -/
def badSizeImage : MachImage :=
  { magic := MH_MAGIC_64, filetype := MH_EXECUTE,
    loadCommands :=
      [textCmd, { cmdsize := 23, payload := LoadCommandPayload.symtab }] }

/-- An image with a segment but no `__TEXT` segment. -/
def noTextImage : MachImage :=
  { magic := MH_MAGIC_64, filetype := MH_EXECUTE, loadCommands := [dataCmd] }

/-- A `__TEXT` segment whose file offset is nonzero. -/
def badOffTextSeg : MachOImageSegmentReader :=
  { segname := "__TEXT", vmaddr := 4096, vmsize := 8192, fileoff := 4096,
    slides := true, sections := [] }

/-- An image whose `__TEXT` segment sits at nonzero file offset. -/
def badOffImage : MachImage :=
  { magic := MH_MAGIC_64, filetype := MH_EXECUTE,
    loadCommands :=
      [{ cmdsize := 72, payload := LoadCommandPayload.segment badOffTextSeg }] }

theorem U64MOD_eq : U64MOD = 18446744073709551616 := by
  norm_num [U64MOD]

theorem sub64_eq_sub (a b : Nat) (ha : a < U64MOD) (hb : b ≤ a) :
    sub64 a b = a - b := by
  simp only [sub64, U64MOD_eq] at *
  omega

theorem sub64_wrap (a b : Nat) (hb : b < U64MOD) (hab : a < b) :
    sub64 a b = a + U64MOD - b := by
  simp only [sub64, U64MOD_eq] at *
  omega

theorem stepCommand_fixed {w : Width} {ft : Nat} {st st' : MachOImageReader}
    {lc : LoadCommand} (h : stepCommand w ft st lc = some st') :
    st'.address = st.address ∧ st'.file_type = st.file_type ∧
    st'.slide = st.slide ∧ st'.size = st.size := by
  cases lc with
  | mk sz p =>
    cases p <;> simp only [stepCommand] at h <;> (try split_ifs at h) <;>
      cases h <;> exact ⟨rfl, rfl, rfl, rfl⟩

theorem runCommands_fixed {w : Width} {ft : Nat} :
    ∀ {cmds : List LoadCommand} {st st' : MachOImageReader},
    runCommands w ft st cmds = some st' →
    st'.address = st.address ∧ st'.file_type = st.file_type := by
  intro cmds
  induction cmds with
  | nil =>
      intro st st' h
      cases h
      exact ⟨rfl, rfl⟩
  | cons lc rest ih =>
      intro st st' h
      simp only [runCommands] at h
      cases hs : stepCommand w ft st lc with
      | none => rw [hs] at h; cases h
      | some st2 =>
          rw [hs] at h
          obtain ⟨h1, h2⟩ := ih h
          obtain ⟨f1, f2, _, _⟩ := stepCommand_fixed hs
          exact ⟨h1.trans f1, h2.trans f2⟩

theorem stepCommand_segments {w : Width} {ft : Nat} {st st' : MachOImageReader}
    {lc : LoadCommand} (h : stepCommand w ft st lc = some st') :
    st'.segments = st.segments ++
      (match lc.payload with
       | LoadCommandPayload.segment seg => [seg]
       | _ => []) := by
  cases lc with
  | mk sz p =>
    cases p <;> simp only [stepCommand] at h <;> (try split_ifs at h) <;>
      cases h <;> simp

theorem runCommands_segments {w : Width} {ft : Nat} :
    ∀ {cmds : List LoadCommand} {st st' : MachOImageReader},
    runCommands w ft st cmds = some st' →
    st'.segments = st.segments ++ commandSegments cmds := by
  intro cmds
  induction cmds with
  | nil =>
      intro st st' h
      cases h
      simp [commandSegments]
  | cons lc rest ih =>
      intro st st' h
      simp only [runCommands] at h
      cases hs : stepCommand w ft st lc with
      | none => rw [hs] at h; cases h
      | some st2 =>
          rw [hs] at h
          have h2 := ih h
          have h1 := stepCommand_segments hs
          rw [h2, h1]
          cases lc with
          | mk sz p => cases p <;> simp [commandSegments]

theorem stepCommand_scalars {w : Width} {ft : Nat} {st st' : MachOImageReader}
    {lc : LoadCommand} (h : stepCommand w ft st lc = some st')
    (hopt : hasOptionalScalarCommand lc = false) :
    st'.uuid = st.uuid ∧ st'.source_version = st.source_version ∧
    st'.dylinker_name = st.dylinker_name ∧
    st'.id_dylib_command = st.id_dylib_command := by
  cases lc with
  | mk sz p =>
    cases p <;> simp [hasOptionalScalarCommand] at hopt <;>
      simp only [stepCommand] at h <;> (try split_ifs at h) <;>
      cases h <;> exact ⟨rfl, rfl, rfl, rfl⟩

theorem runCommands_scalars {w : Width} {ft : Nat} :
    ∀ {cmds : List LoadCommand} {st st' : MachOImageReader},
    runCommands w ft st cmds = some st' →
    (∀ lc ∈ cmds, hasOptionalScalarCommand lc = false) →
    st'.uuid = st.uuid ∧ st'.source_version = st.source_version ∧
    st'.dylinker_name = st.dylinker_name ∧
    st'.id_dylib_command = st.id_dylib_command := by
  intro cmds
  induction cmds with
  | nil =>
      intro st st' h _
      cases h
      exact ⟨rfl, rfl, rfl, rfl⟩
  | cons lc rest ih =>
      intro st st' h hopt
      simp only [runCommands] at h
      cases hs : stepCommand w ft st lc with
      | none => rw [hs] at h; cases h
      | some st2 =>
          rw [hs] at h
          obtain ⟨a1, a2, a3, a4⟩ := ih h (fun x hx => hopt x (List.mem_cons_of_mem _ hx))
          obtain ⟨b1, b2, b3, b4⟩ := stepCommand_scalars hs (hopt lc (List.mem_cons_self _ _))
          exact ⟨a1.trans b1, a2.trans b2, a3.trans b3, a4.trans b4⟩

theorem stepCommand_dylinker {w : Width} {ft : Nat} {st st' : MachOImageReader}
    {lc : LoadCommand} (h : stepCommand w ft st lc = some st') :
    st'.dylinker_name = dylinkerStep ft st.dylinker_name lc := by
  cases lc with
  | mk sz p =>
    cases p <;> simp only [stepCommand, dylinkerStep] at h ⊢ <;>
      (try split_ifs at h ⊢) <;>
      cases h <;> rfl

theorem runCommands_dylinker {w : Width} {ft : Nat} :
    ∀ {cmds : List LoadCommand} {st st' : MachOImageReader},
    runCommands w ft st cmds = some st' →
    st'.dylinker_name = cmds.foldl (dylinkerStep ft) st.dylinker_name := by
  intro cmds
  induction cmds with
  | nil =>
      intro st st' h
      cases h
      rfl
  | cons lc rest ih =>
      intro st st' h
      simp only [runCommands] at h
      cases hs : stepCommand w ft st lc with
      | none => rw [hs] at h; cases h
      | some st2 =>
          rw [hs] at h
          rw [List.foldl_cons, ← stepCommand_dylinker hs]
          exact ih h

theorem stepCommand_none_of_sizeBad {w : Width} {ft : Nat}
    {st : MachOImageReader} {lc : LoadCommand}
    (h : commandSizeOk w ft lc = false) :
    stepCommand w ft st lc = none := by
  cases lc with
  | mk sz p =>
    cases p <;>
      simp only [commandSizeOk, expectedCmdsize, stepCommand] at h ⊢ <;>
      (try split_ifs at h ⊢) <;> simp_all

theorem runCommands_none_of_bad {w : Width} {ft : Nat} :
    ∀ {cmds : List LoadCommand} {lc : LoadCommand} (st : MachOImageReader),
    lc ∈ cmds → commandSizeOk w ft lc = false →
    runCommands w ft st cmds = none := by
  intro cmds
  induction cmds with
  | nil =>
      intro lc st hmem _
      cases hmem
  | cons c rest ih =>
      intro lc st hmem hbad
      simp only [runCommands]
      rcases List.mem_cons.mp hmem with heq | hmem'
      · subst heq
        rw [stepCommand_none_of_sizeBad hbad]
      · cases hs : stepCommand w ft st c with
        | none => rfl
        | some st2 => exact ih st2 hmem' hbad

theorem lastSegmentWithName_append_single (xs : List MachOImageSegmentReader)
    (s : MachOImageSegmentReader) (name : String) :
    lastSegmentWithName (xs ++ [s]) name =
      if s.segname = name then some s else lastSegmentWithName xs name := by
  induction xs with
  | nil => simp [lastSegmentWithName]
  | cons x xs ih =>
      simp only [List.cons_append, lastSegmentWithName, List.append_eq] at ih ⊢
      rw [ih]
      by_cases hs : s.segname = name
      · simp [hs]
      · simp only [if_neg hs]

theorem lastSegmentWithName_eq_none (segs : List MachOImageSegmentReader)
    (name : String) (h : ∀ seg ∈ segs, seg.segname ≠ name) :
    lastSegmentWithName segs name = none := by
  induction segs with
  | nil => rfl
  | cons x xs ih =>
      simp only [lastSegmentWithName]
      rw [ih (fun s hs => h s (List.mem_cons_of_mem _ hs))]
      simp [h x (List.mem_cons_self _ _)]

theorem initialReader_mapInv (a ft : Nat) : mapInv (initialReader a ft) := by
  intro name
  refine ⟨fun i hi => ?_, fun _ => rfl⟩
  simp [initialReader, segmentMapFind] at hi

theorem stepCommand_mapInv {w : Width} {ft : Nat} {st st' : MachOImageReader}
    {lc : LoadCommand} (hinv : mapInv st)
    (h : stepCommand w ft st lc = some st') : mapInv st' := by
  cases lc with
  | mk sz p =>
    cases p with
    | segment seg =>
        simp only [stepCommand] at h
        split_ifs at h
        cases h
        intro name
        constructor
        · intro i hi
          simp only [segmentMapFind] at hi
          by_cases hn : seg.segname = name
          · rw [if_pos hn] at hi
            cases hi
            refine ⟨by simp, ?_⟩
            show (st.segments ++ [seg])[st.segments.length]? = _
            rw [List.getElem?_concat_length,
              lastSegmentWithName_append_single, if_pos hn]
          · rw [if_neg hn] at hi
            obtain ⟨hlt, hget⟩ := (hinv name).1 i hi
            refine ⟨by simp; omega, ?_⟩
            show (st.segments ++ [seg])[i]? = _
            rw [List.getElem?_append_left hlt, hget,
              lastSegmentWithName_append_single, if_neg hn]
        · intro hnone
          simp only [segmentMapFind] at hnone
          by_cases hn : seg.segname = name
          · rw [if_pos hn] at hnone; cases hnone
          · rw [if_neg hn] at hnone
            show lastSegmentWithName (st.segments ++ [seg]) name = none
            rw [lastSegmentWithName_append_single, if_neg hn]
            exact (hinv name).2 hnone
    | symtab =>
        simp only [stepCommand] at h; split_ifs at h; cases h; exact hinv
    | dysymtab =>
        simp only [stepCommand] at h; split_ifs at h; cases h; exact hinv
    | idDylib v =>
        simp only [stepCommand] at h; split_ifs at h; cases h; exact hinv
    | loadDylinker n =>
        simp only [stepCommand] at h; split_ifs at h <;> cases h <;> exact hinv
    | idDylinker n =>
        simp only [stepCommand] at h; split_ifs at h <;> cases h <;> exact hinv
    | uuidCmd b =>
        simp only [stepCommand] at h; split_ifs at h; cases h; exact hinv
    | sourceVersion v =>
        simp only [stepCommand] at h; split_ifs at h; cases h; exact hinv
    | other c =>
        simp only [stepCommand] at h; cases h; exact hinv

theorem runCommands_mapInv {w : Width} {ft : Nat} :
    ∀ {cmds : List LoadCommand} {st st' : MachOImageReader},
    mapInv st → runCommands w ft st cmds = some st' → mapInv st' := by
  intro cmds
  induction cmds with
  | nil =>
      intro st st' hinv h
      cases h
      exact hinv
  | cons lc rest ih =>
      intro st st' hinv h
      simp only [runCommands] at h
      cases hs : stepCommand w ft st lc with
      | none => rw [hs] at h; cases h
      | some st2 =>
          rw [hs] at h
          exact ih (stepCommand_mapInv hinv hs) h

theorem initialize_inv {a : Nat} {img : MachImage} {r : MachOImageReader}
    (h : Initialize a img = some r) :
    ∃ w st i text,
      widthForMagic img.magic = some w ∧
      runCommands w img.filetype (initialReader a img.filetype)
        img.loadCommands = some st ∧
      segmentMapFind st.segment_map "__TEXT" = some i ∧
      st.segments[i]? = some text ∧
      text.fileoff = 0 ∧
      r = { st with
              slide := sub64 a text.vmaddr
              size := (text.vmsize +
                (if text.slides then 0 else sub64 a text.vmaddr)) % U64MOD } := by
  unfold Initialize at h
  split at h
  next hw => cases h
  next w hw =>
    split at h
    next hrun => cases h
    next st hrun =>
      split at h
      next hfind => cases h
      next i hfind =>
        split at h
        next hget => cases h
        next text hget =>
          split at h
          next hoff =>
            cases h
            exact ⟨w, st, i, text, hw, hrun, hfind, hget, hoff, rfl⟩
          next hoff => cases h

theorem sectionAt_map_snd (segs : List MachOImageSegmentReader) :
    ∀ i, (sectionAt segs i).map Prod.snd = (allSections segs)[i]? := by
  induction segs with
  | nil => intro i; simp [sectionAt, allSections]
  | cons seg rest ih =>
      intro i
      simp only [sectionAt, allSections]
      cases hg : seg.sections[i]? with
      | some s =>
          have hlt : i < seg.sections.length := by
            by_contra hge
            rw [List.getElem?_eq_none (Nat.le_of_not_lt hge)] at hg
            cases hg
          rw [List.getElem?_append_left hlt, hg]
          rfl
      | none =>
          have hge : seg.sections.length ≤ i := List.getElem?_eq_none_iff.mp hg
          rw [List.getElem?_append_right hge, ← ih]

theorem findSectionNamed_eq_none (l : List MachSection) (name : String)
    (h : ∀ s ∈ l, s.sectname ≠ name) : findSectionNamed l name = none := by
  induction l with
  | nil => rfl
  | cons x xs ih =>
      simp only [findSectionNamed]
      rw [if_neg (h x (List.mem_cons_self _ _))]
      exact ih (fun s hs => h s (List.mem_cons_of_mem _ hs))

theorem foldl_dylinkerStep_exec (cmds : List LoadCommand) :
    ∀ acc, cmds.foldl (dylinkerStep MH_EXECUTE) acc =
      cmds.foldl
        (fun a lc =>
          match lc.payload with
          | LoadCommandPayload.loadDylinker n => n
          | _ => a) acc := by
  induction cmds with
  | nil => intro acc; rfl
  | cons lc rest ih =>
      intro acc
      simp only [List.foldl_cons, ih]
      congr 1
      cases lc with
      | mk sz p => cases p <;> simp [dylinkerStep, MH_EXECUTE, MH_DYLINKER]

theorem foldl_dylinkerStep_dylinker (cmds : List LoadCommand) :
    ∀ acc, cmds.foldl (dylinkerStep MH_DYLINKER) acc =
      cmds.foldl
        (fun a lc =>
          match lc.payload with
          | LoadCommandPayload.idDylinker n => n
          | _ => a) acc := by
  induction cmds with
  | nil => intro acc; rfl
  | cons lc rest ih =>
      intro acc
      simp only [List.foldl_cons, ih]
      congr 1
      cases lc with
      | mk sz p => cases p <;> simp [dylinkerStep, MH_EXECUTE, MH_DYLINKER]

theorem foldl_dylinkerStep_other (ft : Nat) (h1 : ft ≠ MH_EXECUTE)
    (h2 : ft ≠ MH_DYLINKER) (cmds : List LoadCommand) :
    ∀ acc, cmds.foldl (dylinkerStep ft) acc = acc := by
  induction cmds with
  | nil => intro acc; rfl
  | cons lc rest ih =>
      intro acc
      simp only [List.foldl_cons]
      rw [show dylinkerStep ft acc lc = acc from ?_]
      · exact ih acc
      · cases lc with
        | mk sz p => cases p <;> simp [dylinkerStep, h1, h2]

/-- C1: For every segment of a successfully initialized image found by
`GetSegmentByName`, the returned values are adjusted: if the segment slides,
its adjusted address equals its preferred `vmaddr` plus the image slide and
its adjusted size equals its preferred `vmsize`; if the segment does not
slide, its adjusted address equals its preferred `vmaddr` and its adjusted
size equals its preferred `vmsize` plus the slide. -/
theorem getSegmentByName_adjusted (a : Nat) (img : MachImage)
    (r : MachOImageReader) (sname : String)
    (seg : MachOImageSegmentReader) (adjAddr adjSize : Nat)
    (_hinit : Initialize a img = some r)
    (hfound : GetSegmentByName r sname = some (seg, adjAddr, adjSize))
    (haddr : seg.vmaddr + Slide r < U64MOD)
    (hsize : seg.vmsize + Slide r < U64MOD) :
    (seg.slides = true →
        adjAddr = seg.vmaddr + Slide r ∧ adjSize = seg.vmsize) ∧
    (seg.slides = false →
        adjAddr = seg.vmaddr ∧ adjSize = seg.vmsize + Slide r) := by
  unfold GetSegmentByName at hfound
  split at hfound
  next => cases hfound
  next i hfind =>
    split at hfound
    next => cases hfound
    next seg0 hget =>
      cases hfound
      constructor
      · intro hs
        simp only [hs, if_true, Slide] at haddr hsize ⊢
        rw [U64MOD_eq] at haddr hsize ⊢
        constructor <;> omega
      · intro hs
        simp only [hs, Bool.false_eq_true, if_false, Slide] at haddr hsize ⊢
        rw [U64MOD_eq] at haddr hsize ⊢
        constructor <;> omega

/-- C2: For every successfully initialized image, the ordered segment
collection lists the segments in load-command order, and
`GetSectionAtIndex` with the 1-based cross-segment ordinal `k` returns
exactly the `k`-th section in load-command order for every `k` from 1 to the
total section count `M`, while `k = 0` and every `k > M` return not-found
(`none`) non-fatally. -/
theorem getSectionAtIndex_ordinal (a : Nat) (img : MachImage)
    (r : MachOImageReader) (hinit : Initialize a img = some r) :
    r.segments = commandSegments img.loadCommands ∧
    (∀ k, 1 ≤ k → k ≤ (allSections r.segments).length →
        (GetSectionAtIndex r k).map Prod.fst =
          (allSections r.segments)[k - 1]?) ∧
    GetSectionAtIndex r 0 = none ∧
    (∀ k, (allSections r.segments).length < k →
        GetSectionAtIndex r k = none) := by
  obtain ⟨w, st, i, text, hw, hrun, hfind, hget, hoff, hr⟩ := initialize_inv hinit
  have hsegs : r.segments = commandSegments img.loadCommands := by
    subst hr
    simpa [initialReader] using runCommands_segments hrun
  refine ⟨hsegs, ?_, ?_, ?_⟩
  · intro k hk1 hkM
    have h1 := sectionAt_map_snd r.segments (k - 1)
    cases hsa : sectionAt r.segments (k - 1) with
    | none =>
        rw [hsa] at h1
        have : (allSections r.segments)[k - 1]? = none := h1.symm
        rw [List.getElem?_eq_none_iff] at this
        omega
    | some p =>
        obtain ⟨pseg, psec⟩ := p
        rw [hsa] at h1
        unfold GetSectionAtIndex
        rw [if_neg (by omega), hsa]
        exact h1
  · rfl
  · intro k hk
    have h1 := sectionAt_map_snd r.segments (k - 1)
    have hnone : (allSections r.segments)[k - 1]? = none := by
      rw [List.getElem?_eq_none_iff]
      omega
    rw [hnone] at h1
    have hsa : sectionAt r.segments (k - 1) = none := by
      cases hsa : sectionAt r.segments (k - 1) with
      | none => rfl
      | some p => rw [hsa] at h1; cases h1
    unfold GetSectionAtIndex
    rw [if_neg (by omega), hsa]

/-- C3: `Initialize` returns failure (`none`, no partial image) when the
header's magic matches no supported pointer width, when a recognized load
command's declared length does not match the expected record size for the
detected width, when no `__TEXT` segment is present, or when the `__TEXT`
segment's file offset is nonzero; an unrecognized load command is skipped
silently and never causes failure. -/
theorem initialize_failure_conditions :
    (∀ (a : Nat) (img : MachImage),
        widthForMagic img.magic = none → Initialize a img = none) ∧
    (∀ (w : Width) (ft : Nat) (st : MachOImageReader) (sz cmd : Nat),
        stepCommand w ft st
          { cmdsize := sz, payload := LoadCommandPayload.other cmd } =
          some st) ∧
    (∀ (a : Nat) (img : MachImage) (w : Width) (lc : LoadCommand),
        widthForMagic img.magic = some w → lc ∈ img.loadCommands →
        commandSizeOk w img.filetype lc = false → Initialize a img = none) ∧
    (∀ (a : Nat) (img : MachImage),
        (∀ seg ∈ commandSegments img.loadCommands, seg.segname ≠ "__TEXT") →
        Initialize a img = none) ∧
    (∀ (a : Nat) (img : MachImage) (text : MachOImageSegmentReader),
        lastSegmentWithName (commandSegments img.loadCommands) "__TEXT" =
          some text →
        text.fileoff ≠ 0 → Initialize a img = none) := by
  refine ⟨?_, ?_, ?_, ?_, ?_⟩
  · intro a img h
    simp [Initialize, h]
  · intro w ft st sz cmd
    rfl
  · intro a img w lc hw hmem hbad
    simp [Initialize, hw,
      runCommands_none_of_bad (initialReader a img.filetype) hmem hbad]
  · intro a img hno
    cases hw : widthForMagic img.magic with
    | none => simp [Initialize, hw]
    | some w =>
        cases hrun : runCommands w img.filetype (initialReader a img.filetype)
            img.loadCommands with
        | none => simp [Initialize, hw, hrun]
        | some st =>
            have hinv : mapInv st :=
              runCommands_mapInv (initialReader_mapInv a img.filetype) hrun
            have hsegs : st.segments = commandSegments img.loadCommands := by
              simpa [initialReader] using runCommands_segments hrun
            have hlast : lastSegmentWithName st.segments "__TEXT" = none := by
              rw [hsegs]
              exact lastSegmentWithName_eq_none _ _ hno
            cases hfind : segmentMapFind st.segment_map "__TEXT" with
            | none => simp [Initialize, hw, hrun, hfind]
            | some i =>
                have hget : st.segments[i]? = none :=
                  ((hinv "__TEXT").1 i hfind).2.trans hlast
                simp [Initialize, hw, hrun, hfind, hget]
  · intro a img text hlast hoff
    cases hw : widthForMagic img.magic with
    | none => simp [Initialize, hw]
    | some w =>
        cases hrun : runCommands w img.filetype (initialReader a img.filetype)
            img.loadCommands with
        | none => simp [Initialize, hw, hrun]
        | some st =>
            have hinv : mapInv st :=
              runCommands_mapInv (initialReader_mapInv a img.filetype) hrun
            have hsegs : st.segments = commandSegments img.loadCommands := by
              simpa [initialReader] using runCommands_segments hrun
            have hlast' : lastSegmentWithName st.segments "__TEXT" = some text := by
              rw [hsegs]; exact hlast
            cases hfind : segmentMapFind st.segment_map "__TEXT" with
            | none =>
                rw [(hinv "__TEXT").2 hfind] at hlast'
                cases hlast'
            | some i =>
                have hget : st.segments[i]? = some text :=
                  ((hinv "__TEXT").1 i hfind).2.trans hlast'
                simp [Initialize, hw, hrun, hfind, hget, hoff]

/-- C4: For every image successfully initialized at load address `a` whose
`__TEXT` segment has preferred `vmaddr` at or below `a`, `Address` returns
exactly `a`, `Slide` returns exactly `a - vmaddr`, and `Slide` is zero when
the image loaded at its preferred address. -/
theorem address_slide_roundtrip (a : Nat) (img : MachImage)
    (r : MachOImageReader) (i : Nat) (text : MachOImageSegmentReader)
    (hinit : Initialize a img = some r)
    (hfind : segmentMapFind r.segment_map "__TEXT" = some i)
    (hget : r.segments[i]? = some text)
    (ha : a < U64MOD) (hp : text.vmaddr ≤ a) :
    Address r = a ∧ Slide r = a - text.vmaddr ∧
    (a = text.vmaddr → Slide r = 0) := by
  obtain ⟨w, st, i0, text0, hw, hrun, hfind0, hget0, hoff0, hr⟩ :=
    initialize_inv hinit
  subst hr
  have h1 : segmentMapFind st.segment_map "__TEXT" = some i := hfind
  have hii : i = i0 := by
    rw [hfind0] at h1
    exact (Option.some.inj h1).symm
  subst hii
  have h2 : st.segments[i]? = some text := hget
  have htt : text = text0 := by
    rw [hget0] at h2
    exact (Option.some.inj h2).symm
  subst htt
  have haddr : st.address = a := (runCommands_fixed hrun).1
  refine ⟨haddr, ?_, ?_⟩
  · show sub64 a text.vmaddr = a - text.vmaddr
    exact sub64_eq_sub a text.vmaddr ha hp
  · intro hap
    show sub64 a text.vmaddr = 0
    rw [sub64_eq_sub a text.vmaddr ha hp, ← hap, Nat.sub_self]

/-- C5: For every successfully initialized image with no optional scalar
load command present, the scalar accessors return the documented defaults:
all-zero UUID, zero source version, empty dynamic-linker name, and dylib
version zero for a dylib; absence of these commands never causes failure. -/
theorem absent_commands_defaults (a : Nat) (img : MachImage)
    (r : MachOImageReader) (hinit : Initialize a img = some r)
    (habs : ∀ lc ∈ img.loadCommands, hasOptionalScalarCommand lc = false) :
    UUID r = List.replicate 16 0 ∧ SourceVersion r = 0 ∧
    DylinkerName r = "" ∧
    (FileType r = MH_DYLIB → DylibVersion r = some 0) := by
  obtain ⟨w, st, i, text, hw, hrun, hfind, hget, hoff, hr⟩ :=
    initialize_inv hinit
  obtain ⟨h1, h2, h3, h4⟩ := runCommands_scalars hrun habs
  subst hr
  refine ⟨h1, h2, h3, ?_⟩
  intro hft
  have hft' : st.file_type = MH_DYLIB := hft
  have h4' : st.id_dylib_command = none := h4
  show DylibVersion _ = some 0
  unfold DylibVersion
  rw [if_pos hft']
  rw [show ({ st with
        slide := sub64 a text.vmaddr
        size := (text.vmsize +
          (if text.slides then 0 else sub64 a text.vmaddr)) % U64MOD } :
      MachOImageReader).id_dylib_command = st.id_dylib_command from rfl, h4']

/-- C6: `DylibVersion` may only be called on images whose file type is
`MH_DYLIB`: on any other file type the assertion fires (modelled as `none`)
instead of returning an error value, and under the precondition
`FileType r = MH_DYLIB` the assertion branch is unreachable and a value is
always returned. -/
theorem dylibVersion_contract (r : MachOImageReader) :
    (FileType r ≠ MH_DYLIB → DylibVersion r = none) ∧
    (FileType r = MH_DYLIB → (DylibVersion r).isSome = true) := by
  constructor
  · intro h
    have h' : r.file_type ≠ MH_DYLIB := h
    unfold DylibVersion
    rw [if_neg h']
  · intro h
    have h' : r.file_type = MH_DYLIB := h
    unfold DylibVersion
    rw [if_pos h']
    rfl

/-- C7: For every successfully initialized image, a segment name naming no
segment of the image makes `GetSegmentByName` and `GetSectionByName` return
not-found (`none`) without aborting, and a section name absent from the
found segment makes `GetSectionByName` return not-found; the lookups are
modelled as pure functions of the reader state, mirroring their `const`
declarations, so they mutate nothing. -/
theorem lookups_not_found (a : Nat) (img : MachImage)
    (r : MachOImageReader) (hinit : Initialize a img = some r) :
    (∀ sname, (∀ seg ∈ r.segments, seg.segname ≠ sname) →
        GetSegmentByName r sname = none ∧
        ∀ secname, GetSectionByName r sname secname = none) ∧
    (∀ sname secname seg adjA adjS,
        GetSegmentByName r sname = some (seg, adjA, adjS) →
        (∀ s ∈ seg.sections, s.sectname ≠ secname) →
        GetSectionByName r sname secname = none) := by
  obtain ⟨w, st, i, text, hw, hrun, hfind, hget, hoff, hr⟩ :=
    initialize_inv hinit
  have hinvst : mapInv st :=
    runCommands_mapInv (initialReader_mapInv a img.filetype) hrun
  have hinvr : mapInv r := by
    subst hr
    exact hinvst
  constructor
  · intro sname habs
    have hlast : lastSegmentWithName r.segments sname = none :=
      lastSegmentWithName_eq_none _ _ habs
    have hseg : GetSegmentByName r sname = none := by
      cases hfind2 : segmentMapFind r.segment_map sname with
      | none => simp [GetSegmentByName, hfind2]
      | some j =>
          have hg : r.segments[j]? = none :=
            ((hinvr sname).1 j hfind2).2.trans hlast
          simp [GetSegmentByName, hfind2, hg]
    refine ⟨hseg, fun secname => ?_⟩
    simp [GetSectionByName, hseg]
  · intro sname secname seg adjA adjS hseg habs
    simp [GetSectionByName, hseg,
      findSectionNamed_eq_none seg.sections secname habs]

/-- C8: For every successfully initialized image, every segment command's
segment is kept in the ordered segment collection in load-command order —
also when several carry the same name — while the name index resolves a name
to the last same-named segment in load-command order, so `GetSegmentByName`
returns only that last one. -/
theorem duplicate_segment_names (a : Nat) (img : MachImage)
    (r : MachOImageReader) (hinit : Initialize a img = some r) :
    r.segments = commandSegments img.loadCommands ∧
    ∀ name, (GetSegmentByName r name).map Prod.fst =
      lastSegmentWithName r.segments name := by
  obtain ⟨w, st, i, text, hw, hrun, hfind, hget, hoff, hr⟩ :=
    initialize_inv hinit
  have hinvst : mapInv st :=
    runCommands_mapInv (initialReader_mapInv a img.filetype) hrun
  have hinvr : mapInv r := by
    subst hr
    exact hinvst
  constructor
  · subst hr
    simpa [initialReader] using runCommands_segments hrun
  · intro name
    cases hfind2 : segmentMapFind r.segment_map name with
    | none =>
        rw [(hinvr name).2 hfind2]
        simp [GetSegmentByName, hfind2]
    | some j =>
        obtain ⟨hjlt, hjeq⟩ := (hinvr name).1 j hfind2
        cases hg : r.segments[j]? with
        | none =>
            rw [hg] at hjeq
            simp [GetSegmentByName, hfind2, hg, ← hjeq]
        | some seg =>
            rw [hg] at hjeq
            simp [GetSegmentByName, hfind2, hg, ← hjeq]

/-- C9: `Slide` and the stored slide are unsigned 64-bit quantities, so when
the image's actual load address `a` is below the `__TEXT` segment's
preferred `vmaddr` — a negative slide — `Slide` returns the difference
reduced modulo `2 ^ 64`, a large positive value rather than a negative
number. -/
theorem slide_unsigned_wraparound (a : Nat) (img : MachImage)
    (r : MachOImageReader) (i : Nat) (text : MachOImageSegmentReader)
    (hinit : Initialize a img = some r)
    (hfind : segmentMapFind r.segment_map "__TEXT" = some i)
    (hget : r.segments[i]? = some text)
    (hp : text.vmaddr < U64MOD) (hlt : a < text.vmaddr) :
    Slide r = a + U64MOD - text.vmaddr ∧ 0 < Slide r ∧
    (Slide r + text.vmaddr) % U64MOD = a := by
  obtain ⟨w, st, i0, text0, hw, hrun, hfind0, hget0, hoff0, hr⟩ :=
    initialize_inv hinit
  subst hr
  have h1 : segmentMapFind st.segment_map "__TEXT" = some i := hfind
  have hii : i = i0 := by
    rw [hfind0] at h1
    exact (Option.some.inj h1).symm
  subst hii
  have h2 : st.segments[i]? = some text := hget
  have htt : text = text0 := by
    rw [hget0] at h2
    exact (Option.some.inj h2).symm
  subst htt
  have hs : sub64 a text.vmaddr = a + U64MOD - text.vmaddr :=
    sub64_wrap a text.vmaddr hp hlt
  refine ⟨hs, ?_, ?_⟩
  · show 0 < sub64 a text.vmaddr
    rw [hs]
    rw [U64MOD_eq] at hp ⊢
    omega
  · show (sub64 a text.vmaddr + text.vmaddr) % U64MOD = a
    rw [hs]
    rw [U64MOD_eq] at hp ⊢
    omega

/-- C10: `DylinkerName` is conditioned on the image's file type: for
`MH_EXECUTE` images it returns the name from the last `LC_LOAD_DYLINKER`
command (empty when there is none), for `MH_DYLINKER` images the name from
the last `LC_ID_DYLINKER` command, and for every other file type the empty
string even when such a command is present. -/
theorem dylinkerName_file_type (a : Nat) (img : MachImage)
    (r : MachOImageReader) (hinit : Initialize a img = some r) :
    (img.filetype = MH_EXECUTE →
        DylinkerName r = lastLoadDylinkerName img.loadCommands) ∧
    (img.filetype = MH_DYLINKER →
        DylinkerName r = lastIdDylinkerName img.loadCommands) ∧
    (img.filetype ≠ MH_EXECUTE → img.filetype ≠ MH_DYLINKER →
        DylinkerName r = "") := by
  obtain ⟨w, st, i, text, hw, hrun, hfind, hget, hoff, hr⟩ :=
    initialize_inv hinit
  have hdyl : st.dylinker_name =
      img.loadCommands.foldl (dylinkerStep img.filetype) "" :=
    runCommands_dylinker hrun
  subst hr
  refine ⟨fun hft => ?_, fun hft => ?_, fun h1 h2 => ?_⟩
  · show st.dylinker_name = _
    rw [hdyl, hft, foldl_dylinkerStep_exec]
    rfl
  · show st.dylinker_name = _
    rw [hdyl, hft, foldl_dylinkerStep_dylinker]
    rfl
  · show st.dylinker_name = ""
    rw [hdyl, foldl_dylinkerStep_other img.filetype h1 h2]

/-- Witness for C1: in `sampleImage` initialized at 20480 (slide 16384), the
name `"__DATA"` finds the non-sliding `data2Seg` (address 20480 unchanged,
size grown to 20480) and `"__TEXT"` finds the sliding `textSeg` (address
20480, size 8192 unchanged). -/
theorem getSegmentByName_adjusted_witness :
    ((data2Seg.slides = true →
        20480 = data2Seg.vmaddr + Slide sampleReader ∧
        20480 = data2Seg.vmsize) ∧
     (data2Seg.slides = false →
        20480 = data2Seg.vmaddr ∧
        20480 = data2Seg.vmsize + Slide sampleReader)) ∧
    ((textSeg.slides = true →
        20480 = textSeg.vmaddr + Slide sampleReader ∧
        8192 = textSeg.vmsize) ∧
     (textSeg.slides = false →
        20480 = textSeg.vmaddr ∧
        8192 = textSeg.vmsize + Slide sampleReader)) :=
  ⟨getSegmentByName_adjusted 20480 sampleImage sampleReader "__DATA"
      data2Seg 20480 20480 (by decide) (by decide) (by decide) (by decide),
   getSegmentByName_adjusted 20480 sampleImage sampleReader "__TEXT"
      textSeg 20480 8192 (by decide) (by decide) (by decide) (by decide)⟩

/-- Witness for C2: `sampleReader` holds four sections across three
segments; ordinal 2 returns the second section in load-command order, and
ordinals 0 and 5 return not-found. -/
theorem getSectionAtIndex_ordinal_witness :
    (GetSectionAtIndex sampleReader 2).map Prod.fst =
      (allSections sampleReader.segments)[2 - 1]? ∧
    GetSectionAtIndex sampleReader 0 = none ∧
    GetSectionAtIndex sampleReader 5 = none :=
  ⟨(getSectionAtIndex_ordinal 20480 sampleImage sampleReader
      (by decide)).2.1 2 (by decide) (by decide),
   (getSectionAtIndex_ordinal 20480 sampleImage sampleReader
      (by decide)).2.2.1,
   (getSectionAtIndex_ordinal 20480 sampleImage sampleReader
      (by decide)).2.2.2 5 (by decide)⟩

/-- Witness for C3: concrete failing images for each failure condition and a
concrete skipped unrecognized command. -/
theorem initialize_failure_conditions_witness :
    Initialize 4096 badMagicImage = none ∧
    stepCommand Width.w64 MH_EXECUTE (initialReader 4096 MH_EXECUTE)
      { cmdsize := 8, payload := LoadCommandPayload.other 42 } =
      some (initialReader 4096 MH_EXECUTE) ∧
    Initialize 4096 badSizeImage = none ∧
    Initialize 4096 noTextImage = none ∧
    Initialize 4096 badOffImage = none :=
  ⟨initialize_failure_conditions.1 4096 badMagicImage (by decide),
   initialize_failure_conditions.2.1 Width.w64 MH_EXECUTE
      (initialReader 4096 MH_EXECUTE) 8 42,
   initialize_failure_conditions.2.2.1 4096 badSizeImage Width.w64
      { cmdsize := 23, payload := LoadCommandPayload.symtab }
      (by decide) (by decide) (by decide),
   initialize_failure_conditions.2.2.2.1 4096 noTextImage (by decide),
   initialize_failure_conditions.2.2.2.2 4096 badOffImage badOffTextSeg
      (by decide) (by decide)⟩

/-- Witness for C4: `sampleImage` initialized at 20480 with `__TEXT`
preferred at 4096 reports address 20480 and slide 16384. -/
theorem address_slide_roundtrip_witness :
    Address sampleReader = 20480 ∧
    Slide sampleReader = 20480 - textSeg.vmaddr ∧
    (20480 = textSeg.vmaddr → Slide sampleReader = 0) :=
  address_slide_roundtrip 20480 sampleImage sampleReader 0 textSeg
    (by decide) (by decide) (by decide) (by decide) (by decide)

/-- Witness for C5: `minImage` carries no optional scalar command, and all
accessors of its reader return the documented defaults. -/
theorem absent_commands_defaults_witness :
    UUID minReader = List.replicate 16 0 ∧
    SourceVersion minReader = 0 ∧
    DylinkerName minReader = "" ∧
    (FileType minReader = MH_DYLIB → DylibVersion minReader = some 0) :=
  absent_commands_defaults 4096 minImage minReader (by decide) (by decide)

/-- Witness for C6: `sampleReader` is an executable, so `DylibVersion`
asserts; `minReader` is a dylib, so a value is returned. -/
theorem dylibVersion_contract_witness :
    DylibVersion sampleReader = none ∧
    (DylibVersion minReader).isSome = true :=
  ⟨(dylibVersion_contract sampleReader).1 (by decide),
   (dylibVersion_contract minReader).2 (by decide)⟩

/-- Witness for C7: `sampleReader` has no `__LINKEDIT` segment and no
`__nope` section inside `__TEXT`; all three lookups return not-found. -/
theorem lookups_not_found_witness :
    GetSegmentByName sampleReader "__LINKEDIT" = none ∧
    GetSectionByName sampleReader "__LINKEDIT" "__sect" = none ∧
    GetSectionByName sampleReader "__TEXT" "__nope" = none :=
  ⟨((lookups_not_found 20480 sampleImage sampleReader (by decide)).1
      "__LINKEDIT" (by decide)).1,
   ((lookups_not_found 20480 sampleImage sampleReader (by decide)).1
      "__LINKEDIT" (by decide)).2 "__sect",
   (lookups_not_found 20480 sampleImage sampleReader (by decide)).2
      "__TEXT" "__nope" textSeg 20480 8192 (by decide) (by decide)⟩

/-- Witness for C8: `sampleImage` carries two `__DATA` segments; both stay
in the ordered collection, and name lookup resolves to the last one. -/
theorem duplicate_segment_names_witness :
    sampleReader.segments = commandSegments sampleImage.loadCommands ∧
    (GetSegmentByName sampleReader "__DATA").map Prod.fst =
      lastSegmentWithName sampleReader.segments "__DATA" :=
  ⟨(duplicate_segment_names 20480 sampleImage sampleReader (by decide)).1,
   (duplicate_segment_names 20480 sampleImage sampleReader (by decide)).2
      "__DATA"⟩

/-- Witness for C9: loading `negSlideImage` at 256, below the preferred
4096, stores the wrapped unsigned difference as the slide. -/
theorem slide_unsigned_wraparound_witness :
    Slide negSlideReader = 256 + U64MOD - textSeg.vmaddr ∧
    0 < Slide negSlideReader ∧
    (Slide negSlideReader + textSeg.vmaddr) % U64MOD = 256 :=
  slide_unsigned_wraparound 256 negSlideImage negSlideReader 0 textSeg
    (by decide) (by decide) (by decide) (by decide) (by decide)

/-- Witness for C10: the executable `sampleImage` reports the name of its
`LC_LOAD_DYLINKER` command, while the bundle `bundleImage` reports the empty
string although the same command is present. -/
theorem dylinkerName_file_type_witness :
    DylinkerName sampleReader = lastLoadDylinkerName sampleImage.loadCommands ∧
    DylinkerName bundleReader = "" :=
  ⟨(dylinkerName_file_type 20480 sampleImage sampleReader (by decide)).1
      (by decide),
   (dylinkerName_file_type 4096 bundleImage bundleReader (by decide)).2.2
      (by decide) (by decide)⟩

end Crashpad
